import Mathlib

/-!
Verification of the controller-graph maintenance logic of zMayaTools
(`scripts/zMayaTools/controller_editor.py`) and of the helper utilities in
`scripts/zMayaTools/maya_helpers.py`, over a shallow embedding of the code.

Controllers are identified by natural numbers.  A controller's `children`
multi-attribute is embedded as a `List (Option Nat)`: position `i` of the list
is the plug `controller.children[i]`; it holds `some c` when the plug has an
incoming connection from child `c`'s `parent` plug, and `none` when the entry
is an unconnected gap.  The host scene is a `Scene` record: the list of
controller nodes (`pm.ls(type='controller')`), each controller's children
array, the source of each controller's `prepopulate` connection, and whether
`referenceQuery` reports the node as referenced.
-/

/-- One entry of a controller's `children` multi-attribute: `some c` when the
entry is connected to child `c`, `none` when the entry is an unconnected gap. -/
abbrev ChildEntry := Option Nat

/-- `entry.isConnected()` for the entry at position `i` of a children array. -/
def entryIsConnected (entries : List ChildEntry) (i : Nat) : Bool :=
  match entries[i]? with
  | some (some _) => true
  | _ => false

/-- `get_controller_children(parent)` (controller_editor.py:41): the loop walks
the entries of the children array in order, skips unconnected entries, and
collects the connected child of each connected entry. -/
def get_controller_children (entries : List ChildEntry) : List Nat :=
  entries.filterMap id

/-- `child.parent.connect(parent.children[idx])` (controller_editor.py:69):
connecting a child into slot `idx` of a children array.  A Maya multi-attribute
element is created on demand, so connecting past the end of the existing
elements extends the array with unconnected entries up to `idx`. -/
def connect_at (entries : List ChildEntry) (idx : Nat) (child : Nat) : List ChildEntry :=
  if idx < entries.length then entries.set idx (some child)
  else entries ++ List.replicate (idx - entries.length) none ++ [some child]

/-- The loop `for idx, child in enumerate(children): child.parent.connect(
parent.children[idx])`, starting at slot `idx`. -/
def connect_from (entries : List ChildEntry) (idx : Nat) : List Nat → List ChildEntry
  | [] => entries
  | c :: rest => connect_from (connect_at entries idx c) (idx + 1) rest

/-- `assign_controller_children(parent, children)` (controller_editor.py:60):
connect the given children at consecutive slots starting at 0. -/
def assign_controller_children (entries : List ChildEntry) (children : List Nat) :
    List ChildEntry :=
  connect_from entries 0 children

/-- `_remove_gaps_in_child_list(controller)` (controller_editor.py:71):
collect the connections of the connected entries in order, noting whether any
unconnected entry (gap) was seen; if no gap was seen return without changes;
otherwise disconnect every entry and reconnect the collected connections at
consecutive slots starting at 0. -/
def remove_gaps_in_child_list (entries : List ChildEntry) : List ChildEntry :=
  let connections := entries.filterMap id
  let any_gaps_seen := entries.any fun e => e.isNone
  if any_gaps_seen = false then entries
  else assign_controller_children (entries.map fun _ => none) connections

/-- A children array is contiguous when every connected entry comes before
every unconnected entry (connected at `0..n-1` with no gaps). -/
def contiguousB : List ChildEntry → Bool
  | [] => true
  | some _ :: rest => contiguousB rest
  | none :: rest => rest.all fun e => e.isNone

/-- The host scene, restricted to what the controller editor manipulates:
the list of controller nodes (`pm.ls(type='controller')`), each controller's
children array, the source controller connected into each controller's
`prepopulate` plug (if any), and whether the node is referenced. -/
structure Scene where
  nodes : List Nat
  children : Nat → List ChildEntry
  prepopulate : Nat → Option Nat
  referenced : Nat → Bool

/-- The slot of a children array that is connected to child `c`, if any. -/
def find_child_slot (entries : List ChildEntry) (c : Nat) : Option Nat :=
  entries.findIdx? fun e => e == some c

/-- `get_controller_parent(controller, get_plug=True)` (controller_editor.py:34):
the plug on the other end of the controller's `parent` connection, i.e. the
slot of some controller's children array that `controller` is connected into,
returned as (parent node, slot index); `none` when the controller is a root. -/
def get_controller_parent (s : Scene) (c : Nat) : Option (Nat × Nat) :=
  s.nodes.findSome? fun p => (find_child_slot (s.children p) c).map fun i => (p, i)

/-- Replace controller `p`'s children array. -/
def set_children_arr (s : Scene) (p : Nat) (arr : List ChildEntry) : Scene :=
  { s with children := fun n => if n = p then arr else s.children n }

/-- Replace the source of controller `c`'s `prepopulate` connection. -/
def set_prepopulate_src (s : Scene) (c : Nat) (v : Option Nat) : Scene :=
  { s with prepopulate := fun n => if n = c then v else s.prepopulate n }

/-- The unparenting half of `set_controller_parent` (controller_editor.py:123):
disconnect the old parent's `prepopulate` from the controller, read and
disconnect the old parent's whole child list, remove the controller from it
(Python `list.remove`, first occurrence), and reassign the remaining children
at consecutive slots starting at 0. -/
def unparent_phase (s : Scene) (controller p : Nat) : Scene :=
  let s1 := set_prepopulate_src s controller none
  let all_children := get_controller_children (s1.children p)
  let s2 := set_children_arr s1 p ((s1.children p).map fun _ => none)
  let remaining := all_children.erase controller
  set_children_arr s2 p (assign_controller_children (s2.children p) remaining)

/-- The insertion rule of `set_controller_parent` (controller_editor.py:143):
when `after` is `None` or not in the child list, put the controller at the
front; otherwise splice it in right after the first occurrence of `after`
(Python `all_children.index(after)` and `all_children[idx:idx] = [...]`). -/
def insert_child_rule (controller : Nat) (after : Option Nat)
    (all_children : List Nat) : List Nat :=
  match after with
  | none => controller :: all_children
  | some a =>
    if a ∈ all_children then
      let idx := List.indexOf a all_children + 1
      all_children.take idx ++ controller :: all_children.drop idx
    else controller :: all_children

/-- The reparenting half of `set_controller_parent` (controller_editor.py:137):
connect the new parent's `prepopulate` to the controller, read and disconnect
the parent's whole child list, insert the controller per `insert_child_rule`,
and reconnect the resulting list at consecutive slots starting at 0. -/
def reparent_phase (s : Scene) (controller par : Nat) (after : Option Nat) : Scene :=
  let s1 := set_prepopulate_src s controller (some par)
  let all_children := get_controller_children (s1.children par)
  let s2 := set_children_arr s1 par ((s1.children par).map fun _ => none)
  let new_children := insert_child_rule controller after all_children
  set_children_arr s2 par (assign_controller_children (s2.children par) new_children)

/-- `set_controller_parent(controller, parent, after=None)`
(controller_editor.py:111): return unchanged when the controller has no parent
connection and `parent` is `None`; otherwise unparent from the old parent (if
any), and, unless `parent` is `None`, insert under the new parent. -/
def set_controller_parent (s : Scene) (controller : Nat) (parent : Option Nat)
    (after : Option Nat := none) : Scene :=
  let old_parent_plug := get_controller_parent s controller
  if old_parent_plug = none ∧ parent = none then s
  else
    let s1 :=
      match old_parent_plug with
      | none => s
      | some (p, _) => unparent_phase s controller p
    match parent with
    | none => s1
    | some par => reparent_phase s1 controller par after

/-- One iteration of the loop in `remove_gaps_in_all_controllers`
(controller_editor.py:105): skip the controller when `referenceQuery` reports
it as referenced, otherwise run the gap-removal pass on it. -/
def remove_gaps_step (acc : Scene) (c : Nat) : Scene :=
  if acc.referenced c then acc
  else set_children_arr acc c (remove_gaps_in_child_list (acc.children c))

/-- `remove_gaps_in_all_controllers()` (controller_editor.py:97). -/
def remove_gaps_in_all_controllers (s : Scene) : Scene :=
  s.nodes.foldl remove_gaps_step s

/-- The `for child in children: add_controllers_recursively(child, ...)` loop
of `populate_tree` (controller_editor.py:522), abstracted over the recursive
call `f`: thread `seen_nodes` through the child visits and concatenate the
visit orders.  A `none` result propagates recursion-depth exhaustion of the
fueled model below. -/
def visit_children {m : Nat}
    (f : Fin m → Finset (Fin m) → Option (Finset (Fin m) × List (Fin m))) :
    List (Fin m) → Finset (Fin m) → Option (Finset (Fin m) × List (Fin m))
  | [], seen => some (seen, [])
  | c :: rest, seen => do
    let (s1, o1) ← f c seen
    let (s2, o2) ← visit_children f rest s1
    pure (s2, o1 ++ o2)

/-- `add_controllers_recursively(node, parent)` (controller_editor.py:487) over
a scene with `m` controllers whose `node.children.listConnections` lists are
given by `g`.  A node already in `seen_nodes` is skipped (the code logs a
cycle warning and returns); otherwise it is added to `seen_nodes`, visited,
and its children are traversed recursively.  The Python recursion carries no
fuel; the embedding bounds the recursion depth by an explicit fuel parameter
and returns `none` when the bound is hit, so that termination is the theorem
that fuel `m` is never exhausted.  The returned list is the visit order. -/
def add_controllers_recursively {m : Nat} (g : Fin m → List (Fin m)) :
    Nat → Fin m → Finset (Fin m) → Option (Finset (Fin m) × List (Fin m))
  | fuel, node, seen =>
    if node ∈ seen then some (seen, [])
    else
      match fuel with
      | 0 => none
      | fuel' + 1 =>
        (visit_children (fun c s => add_controllers_recursively g fuel' c s)
            (g node) (insert node seen)).map fun r => (r.1, node :: r.2)

/-- The traversal of `populate_tree` (controller_editor.py:471): a single
`seen_nodes` set, shared across the loop over the roots. -/
def populate_tree {m : Nat} (g : Fin m → List (Fin m)) (roots : List (Fin m)) :
    Option (Finset (Fin m) × List (Fin m)) :=
  visit_children (fun c s => add_controllers_recursively g m c s) roots ∅

/-- A Python value of one of the kinds an option var can hold.  Floats are
embedded as rationals. -/
inductive PyValue where
  | pyInt (n : Int)
  | pyFloat (q : Rat)
  | pyStr (s : String)
  | pyBool (b : Bool)
deriving DecidableEq

/-- The declared type of an `OptionVar` (the keys of `OptionVar._types`,
maya_helpers.py:22). -/
inductive VarKind where
  | int
  | float
  | string
  | bool
deriving DecidableEq

/-- `isinstance(value, expected_class)` for the `expected_type` of each
declared kind (maya_helpers.py:22): `int` expects `int`, `float` expects
`(float, int)`, `string` expects `basestring`, `bool` expects `(bool, int)`.
Python's `bool` is a subclass of `int`, so a `bool` value passes the `int`
and `float` checks as well. -/
def isinstance_expected : VarKind → PyValue → Bool
  | .int, .pyInt _ => true
  | .int, .pyBool _ => true
  | .int, _ => false
  | .float, .pyFloat _ => true
  | .float, .pyInt _ => true
  | .float, .pyBool _ => true
  | .float, _ => false
  | .string, .pyStr _ => true
  | .string, _ => false
  | .bool, .pyBool _ => true
  | .bool, .pyInt _ => true
  | .bool, _ => false

/-- Python `bool(value)` truthiness. -/
def py_truth : PyValue → Bool
  | .pyInt n => n != 0
  | .pyFloat q => q != 0
  | .pyStr s => s != ""
  | .pyBool b => b

/-- Numeric view of a Python value: ints, floats and bools compare
numerically under Python `==`; strings have no numeric view. -/
def pyNum : PyValue → Option Rat
  | .pyInt n => some n
  | .pyFloat q => some q
  | .pyBool b => some (if b then 1 else 0)
  | .pyStr _ => none

/-- Python `==` on the embedded values: numeric kinds compare by value,
strings compare by content, and a numeric value never equals a string. -/
def pyEq (a b : PyValue) : Bool :=
  match pyNum a, pyNum b with
  | some x, some y => x == y
  | _, _ =>
    match a, b with
    | .pyStr s, .pyStr t => s == t
    | _, _ => false

/-- The state of one `OptionVar` (maya_helpers.py:12): its declared kind, the
constructor's default, and the persisted value (`none` when
`pm.optionVar(exists=name)` is false). -/
structure OptionVarState where
  var_type : VarKind
  default : PyValue
  stored : Option PyValue

/-- The `value` property getter (maya_helpers.py:68): the default when the
option var does not exist; the default when the stored value is not an
instance of the declared kind's expected types; otherwise the stored value,
cast with `bool()` when the declared kind is `bool`. -/
def optionvar_value (v : OptionVarState) : PyValue :=
  match v.stored with
  | none => v.default
  | some value =>
    if isinstance_expected v.var_type value = false then v.default
    else if v.var_type = VarKind.bool then PyValue.pyBool (py_truth value)
    else value

/-- Coercion Maya applies when persisting through `optionVar(intValue=...)`:
a Python bool is stored as the integer 0 or 1. -/
def maya_int_coerce : PyValue → PyValue
  | .pyBool b => .pyInt (if b then 1 else 0)
  | x => x

/-- Coercion Maya applies when persisting through `optionVar(floatValue=...)`:
ints and bools are stored as floats. -/
def maya_float_coerce : PyValue → PyValue
  | .pyInt n => .pyFloat n
  | .pyBool b => .pyFloat (if b then 1 else 0)
  | x => x

/-- How a value is persisted for each declared kind: the `maya_type` column of
`OptionVar._types` (maya_helpers.py:22) — `intValue` for `int` and `bool`,
`floatValue` for `float`, `stringValue` for `string`. -/
def maya_store : VarKind → PyValue → PyValue
  | .int, x => maya_int_coerce x
  | .bool, x => maya_int_coerce x
  | .float, x => maya_float_coerce x
  | .string, x => x

/-- The `value` property setter (maya_helpers.py:87): read the old `value`,
assert the new value is an instance of the expected types (`none` models the
assertion failure), persist the new value, and, when the new value differs
from the old one under Python `!=`, run the change callbacks.  The returned
flag records whether `_call_on_change` was invoked. -/
def optionvar_set (v : OptionVarState) (value : PyValue) :
    Option (OptionVarState × Bool) :=
  let old_value := optionvar_value v
  if isinstance_expected v.var_type value = false then none
  else
    some ({ v with stored := some (maya_store v.var_type value) },
          !(pyEq value old_value))

/-- The two `pm.undoInfo` calls made by the `undo()` context manager. -/
inductive UndoCall where
  | openChunk
  | closeChunk
deriving DecidableEq

/-- The `undo()` context manager (maya_helpers.py:478) run around a block.
The block is modelled by the `pm.undoInfo` calls it makes and a flag telling
whether it raised; `openChunk` precedes the block and, because the
`closeChunk` sits in a `finally:`, `closeChunk` follows it whether or not the
block raised.  The exception flag is propagated unchanged. -/
def run_undo_block (body : List UndoCall × Bool) : List UndoCall × Bool :=
  (UndoCall.openChunk :: (body.1 ++ [UndoCall.closeChunk]), body.2)

/-- The flag combination passed to `pm.setAttr` by `lock_attr`. -/
structure AttrLockFlags where
  lock : Bool
  cb : Bool
  keyable : Bool
deriving DecidableEq

/-- `lock_attr(attr, lock)` (maya_helpers.py:558): dispatch on the lock state
string; an unrecognized state raises `RuntimeError` (the `error` case). -/
def lock_attr (lock : String) : Except String AttrLockFlags :=
  if lock = "lock" then .ok ⟨true, false, false⟩
  else if lock = "lock_visible" then .ok ⟨true, true, false⟩
  else if lock = "hide" then .ok ⟨false, false, false⟩
  else if lock = "unkeyable" then .ok ⟨false, true, false⟩
  else if lock = "keyable" then .ok ⟨false, false, true⟩
  else .error ("Invalid lock state: " ++ lock)

/-- A concrete scene used to instantiate the reparenting theorems: controller
0 has the single child 1, controller 2 has the single child 3. -/
def sceneA : Scene where
  nodes := [0, 1, 2, 3]
  children := fun n => if n = 0 then [some 1] else if n = 2 then [some 3] else []
  prepopulate := fun n => if n = 1 then some 0 else if n = 3 then some 2 else none
  referenced := fun _ => false

/-- A concrete scene used to instantiate the insertion-rule theorem:
controller 0 has children 1 and 2; controller 3 is a root. -/
def sceneB : Scene where
  nodes := [0, 1, 2, 3]
  children := fun n => if n = 0 then [some 1, some 2] else []
  prepopulate := fun n => if n = 1 ∨ n = 2 then some 0 else none
  referenced := fun _ => false

/-- A concrete scene used to instantiate the referenced-controller theorem:
the single controller 0 is referenced and its children array has a gap. -/
def sceneC : Scene where
  nodes := [0, 1]
  children := fun n => if n = 0 then [none, some 1] else []
  prepopulate := fun n => if n = 1 then some 0 else none
  referenced := fun n => n == 0

theorem set_append_length {α : Type} (l1 : List α) (a : α) (t : List α) (v : α) :
    (l1 ++ a :: t).set l1.length v = l1 ++ v :: t := by
  induction l1 with
  | nil => simp
  | cons x xs ih => simp [List.set, ih]

theorem map_none_eq_replicate (entries : List ChildEntry) :
    (entries.map fun _ => (none : ChildEntry)) = List.replicate entries.length none := by
  induction entries with
  | nil => rfl
  | cons x xs ih => simp [List.replicate, ih]

theorem connect_from_pack (cs : List Nat) : ∀ (pre : List Nat) (K : Nat),
    connect_from (pre.map some ++ List.replicate K none) pre.length cs
      = (pre ++ cs).map some ++ List.replicate (K - cs.length) none := by
  induction cs with
  | nil => intro pre K; simp [connect_from]
  | cons c rest ih =>
    intro pre K
    have hstep : connect_at (pre.map some ++ List.replicate K none) pre.length c
        = ((pre ++ [c]).map some ++ List.replicate (K - 1) none) := by
      cases K with
      | zero =>
        simp [connect_at]
      | succ k =>
        have hlt : pre.length < (pre.map some ++ List.replicate (k + 1) none).length := by
          simp
        rw [connect_at, if_pos hlt]
        have : (List.replicate (k + 1) (none : ChildEntry)) = none :: List.replicate k none := by
          simp [List.replicate]
        rw [this]
        have hlen : pre.length = (pre.map some).length := by simp
        rw [hlen, set_append_length]
        simp
    rw [connect_from, hstep]
    have hlen2 : pre.length + 1 = (pre ++ [c]).length := by simp
    rw [hlen2, ih (pre ++ [c]) (K - 1)]
    have : K - 1 - rest.length = K - (rest.length + 1) := by omega
    simp [this]

theorem assign_to_cleared (L : Nat) (cs : List Nat) :
    assign_controller_children (List.replicate L none) cs
      = cs.map some ++ List.replicate (L - cs.length) none := by
  have h := connect_from_pack cs [] L
  simpa [assign_controller_children] using h

theorem filterMap_pack (cs : List Nat) (k : Nat) :
    (cs.map some ++ List.replicate k (none : ChildEntry)).filterMap id = cs := by
  induction cs with
  | nil =>
    induction k with
    | zero => rfl
    | succ n ih => simp [List.replicate]
  | cons c rest ih => simp

theorem entryIsConnected_pack (cs : List Nat) : ∀ (k i : Nat),
    entryIsConnected (cs.map some ++ List.replicate k none) i = decide (i < cs.length) := by
  induction cs with
  | nil =>
    intro k
    induction k with
    | zero => intro i; simp [entryIsConnected]
    | succ n ih =>
      intro i
      cases i with
      | zero => simp [entryIsConnected, List.replicate]
      | succ j => simpa [entryIsConnected, List.replicate] using ih j
  | cons c rest ih =>
    intro k i
    cases i with
    | zero => simp [entryIsConnected]
    | succ j =>
      have := ih k j
      simpa [entryIsConnected] using this

theorem all_some_eq (entries : List ChildEntry)
    (h : entries.any (fun e => e.isNone) = false) :
    entries = (entries.filterMap id).map some := by
  induction entries with
  | nil => rfl
  | cons x xs ih =>
    cases x with
    | none => simp at h
    | some a =>
      simp only [List.any_cons, Bool.or_eq_false_iff] at h
      simpa using ih h.2

theorem replicate_none_all (k : Nat) :
    ((List.replicate k (none : ChildEntry)).all fun e => e.isNone) = true := by
  induction k with
  | zero => rfl
  | succ n ih => simp [List.replicate]

theorem contiguousB_pack (cs : List Nat) (k : Nat) :
    contiguousB (cs.map some ++ List.replicate k none) = true := by
  induction cs with
  | nil =>
    cases k with
    | zero => rfl
    | succ n => simp [contiguousB, List.replicate]
  | cons c rest ih => simpa [contiguousB] using ih

theorem children_set_self (s : Scene) (p : Nat) (arr : List ChildEntry) :
    (set_children_arr s p arr).children p = arr := by
  simp [set_children_arr]

theorem children_set_other (s : Scene) (p n : Nat) (arr : List ChildEntry)
    (h : n ≠ p) : (set_children_arr s p arr).children n = s.children n := by
  simp [set_children_arr, h]

theorem unparent_phase_children_self (s : Scene) (c p : Nat) :
    (unparent_phase s c p).children p
      = ((get_controller_children (s.children p)).erase c).map some
        ++ List.replicate
            ((s.children p).length
              - ((get_controller_children (s.children p)).erase c).length) none := by
  have h1 : ∀ v, (set_prepopulate_src s c v).children = s.children := fun _ => rfl
  simp only [unparent_phase, h1, children_set_self, map_none_eq_replicate,
    List.length_map]
  rw [assign_to_cleared]

theorem unparent_phase_children_other (s : Scene) (c p n : Nat) (h : n ≠ p) :
    (unparent_phase s c p).children n = s.children n := by
  have h1 : ∀ v, (set_prepopulate_src s c v).children = s.children := fun _ => rfl
  simp only [unparent_phase, h1, children_set_other _ _ _ _ h]

theorem reparent_phase_children_self (s : Scene) (c par : Nat) (after : Option Nat) :
    (reparent_phase s c par after).children par
      = (insert_child_rule c after (get_controller_children (s.children par))).map some
        ++ List.replicate
            ((s.children par).length
              - (insert_child_rule c after
                  (get_controller_children (s.children par))).length) none := by
  have h1 : ∀ v, (set_prepopulate_src s c v).children = s.children := fun _ => rfl
  simp only [reparent_phase, h1, children_set_self, map_none_eq_replicate,
    List.length_map]
  rw [assign_to_cleared]

theorem reparent_phase_children_other (s : Scene) (c par n : Nat) (after : Option Nat)
    (h : n ≠ par) : (reparent_phase s c par after).children n = s.children n := by
  have h1 : ∀ v, (set_prepopulate_src s c v).children = s.children := fun _ => rfl
  simp only [reparent_phase, h1, children_set_other _ _ _ _ h]

/-- C1: `_remove_gaps_in_child_list` reconnects exactly the previously
connected child plugs (same connections, same relative order), the resulting
array is connected precisely at slots `0..n-1` where `n` is the number of
previously connected entries, and when the array has no gaps the function
makes no change at all. -/
theorem remove_gaps_in_child_list_correct (entries : List ChildEntry) :
    (remove_gaps_in_child_list entries).filterMap id = entries.filterMap id
    ∧ (∀ i : Nat, entryIsConnected (remove_gaps_in_child_list entries) i = true
        ↔ i < (entries.filterMap id).length)
    ∧ ((∀ e ∈ entries, e ≠ none) → remove_gaps_in_child_list entries = entries) := by
  by_cases hg : (entries.any fun e => e.isNone) = false
  · have hr : remove_gaps_in_child_list entries = entries := by
      simp [remove_gaps_in_child_list, hg]
    have he := all_some_eq entries hg
    refine ⟨by rw [hr], ?_, fun _ => hr⟩
    intro i
    rw [hr]
    conv_lhs => rw [he]
    have hp := entryIsConnected_pack (entries.filterMap id) 0 i
    simp only [List.replicate, List.append_nil] at hp
    rw [hp]
    simp
  · have hg' : (entries.any fun e => e.isNone) = true := by
      revert hg; cases entries.any fun e => e.isNone <;> simp
    have hr : remove_gaps_in_child_list entries
        = (entries.filterMap id).map some
          ++ List.replicate (entries.length - (entries.filterMap id).length) none := by
      simp only [remove_gaps_in_child_list, hg']
      rw [if_neg (by simp), map_none_eq_replicate, assign_controller_children,
        ← assign_controller_children]
      rw [assign_to_cleared]
    refine ⟨by rw [hr, filterMap_pack], ?_, ?_⟩
    · intro i
      rw [hr, entryIsConnected_pack]
      simp
    · intro hall
      exfalso
      obtain ⟨e, hmem, hnone⟩ := List.any_eq_true.mp hg'
      exact hall e hmem (Option.isNone_iff_eq_none.mp hnone)

theorem remove_gaps_in_child_list_correct_w :
    remove_gaps_in_child_list [some 1, some 2] = [some 1, some 2]
    ∧ entryIsConnected (remove_gaps_in_child_list [some 1, none, some 2]) 1 = true := by
  refine ⟨(remove_gaps_in_child_list_correct [some 1, some 2]).2.2 (by decide), ?_⟩
  exact ((remove_gaps_in_child_list_correct [some 1, none, some 2]).2.1 1).mpr (by decide)

/-- C8: when the controller has no parent connection, `set_controller_parent`
with `parent=None` returns without touching the scene: no prepopulate,
children or parent plug of any controller changes. -/
theorem set_controller_parent_none_noop (s : Scene) (c : Nat)
    (h : get_controller_parent s c = none) :
    set_controller_parent s c none = s := by
  simp [set_controller_parent, h]

theorem set_controller_parent_none_noop_w :
    set_controller_parent sceneB 3 none = sceneB :=
  set_controller_parent_none_noop sceneB 3 (by decide)

theorem mem_insert_child_rule (c : Nat) (after : Option Nat) (l : List Nat) :
    c ∈ insert_child_rule c after l := by
  cases after with
  | none => simp [insert_child_rule]
  | some a =>
    simp only [insert_child_rule]
    split
    · simp
    · simp

/-- C2: contiguity of the children arrays is an invariant of re-parenting.
When the controller had an old parent `p` and is moved under `par`, both
`p`'s and `par`'s children arrays are contiguous afterwards, the moved
controller is removed from `p`'s child list (when `p ≠ par`) and inserted
into `par`'s, because both lists are fully disconnected and reassigned to
consecutive slots starting at 0 by `assign_controller_children`. -/
theorem set_controller_parent_keeps_contiguity (s : Scene) (c par : Nat)
    (after : Option Nat) (p i : Nat)
    (hold : get_controller_parent s c = some (p, i))
    (_hp : contiguousB (s.children p) = true)
    (_hpar : contiguousB (s.children par) = true) :
    contiguousB ((set_controller_parent s c (some par) after).children p) = true
    ∧ contiguousB ((set_controller_parent s c (some par) after).children par) = true
    ∧ (p ≠ par →
        get_controller_children ((set_controller_parent s c (some par) after).children p)
          = (get_controller_children (s.children p)).erase c)
    ∧ c ∈ get_controller_children ((set_controller_parent s c (some par) after).children par) := by
  have hres : set_controller_parent s c (some par) after
      = reparent_phase (unparent_phase s c p) c par after := by
    simp [set_controller_parent, hold]
  refine ⟨?_, ?_, ?_, ?_⟩
  · by_cases hpp : p = par
    · subst hpp
      rw [hres, reparent_phase_children_self]
      exact contiguousB_pack _ _
    · rw [hres, reparent_phase_children_other _ _ _ _ _ hpp,
        unparent_phase_children_self]
      exact contiguousB_pack _ _
  · rw [hres, reparent_phase_children_self]
    exact contiguousB_pack _ _
  · intro hne
    rw [hres, reparent_phase_children_other _ _ _ _ _ hne,
      unparent_phase_children_self]
    simp only [get_controller_children]
    exact filterMap_pack _ _
  · rw [hres, reparent_phase_children_self]
    simp only [get_controller_children]
    rw [filterMap_pack]
    exact mem_insert_child_rule _ _ _

theorem set_controller_parent_keeps_contiguity_w :
    contiguousB ((set_controller_parent sceneA 1 (some 2) none).children 0) = true
    ∧ contiguousB ((set_controller_parent sceneA 1 (some 2) none).children 2) = true
    ∧ get_controller_children ((set_controller_parent sceneA 1 (some 2) none).children 0)
        = (get_controller_children (sceneA.children 0)).erase 1
    ∧ 1 ∈ get_controller_children ((set_controller_parent sceneA 1 (some 2) none).children 2) := by
  have h := set_controller_parent_keeps_contiguity sceneA 1 2 none 0 0
    (by decide) (by decide) (by decide)
  exact ⟨h.1, h.2.1, h.2.2.1 (by decide), h.2.2.2⟩

/-- C4: the drag-and-drop insertion rule.  `s1` is the scene after the
unparenting half (it equals `s` when the controller was a root), so
`get_controller_children (s1.children par)` is the parent's current child
list at insertion time.  If `after` is `None` or not in that list, the
controller becomes the first child; otherwise it is spliced in immediately
after the position of `after`, all other children keeping their relative
order. -/
theorem set_controller_parent_insertion_rule (s s1 : Scene) (c par : Nat)
    (after : Option Nat)
    (hs1 : s1 = match get_controller_parent s c with
      | none => s
      | some (p, _) => unparent_phase s c p) :
    ((after = none
        ∨ ∃ a, after = some a ∧ a ∉ get_controller_children (s1.children par)) →
      get_controller_children ((set_controller_parent s c (some par) after).children par)
        = c :: get_controller_children (s1.children par))
    ∧ ∀ a, after = some a → a ∈ get_controller_children (s1.children par) →
        get_controller_children ((set_controller_parent s c (some par) after).children par)
          = (get_controller_children (s1.children par)).take
                (List.indexOf a (get_controller_children (s1.children par)) + 1)
              ++ c :: (get_controller_children (s1.children par)).drop
                (List.indexOf a (get_controller_children (s1.children par)) + 1) := by
  have hres : get_controller_children
        ((set_controller_parent s c (some par) after).children par)
      = insert_child_rule c after (get_controller_children (s1.children par)) := by
    cases hmatch : get_controller_parent s c with
    | none =>
      have hset : set_controller_parent s c (some par) after
          = reparent_phase s c par after := by
        simp [set_controller_parent, hmatch]
      rw [hmatch] at hs1
      subst hs1
      rw [hset, reparent_phase_children_self]
      simp only [get_controller_children]
      exact filterMap_pack _ _
    | some q =>
      have hset : set_controller_parent s c (some par) after
          = reparent_phase (unparent_phase s c q.1) c par after := by
        simp [set_controller_parent, hmatch]
      rw [hmatch] at hs1
      have hs1' : s1 = unparent_phase s c q.1 := by
        rw [hs1]
      subst hs1'
      rw [hset, reparent_phase_children_self]
      simp only [get_controller_children]
      exact filterMap_pack _ _
  constructor
  · intro h
    rw [hres]
    rcases h with h | ⟨a, ha, hmem⟩
    · subst h; rfl
    · subst ha
      simp only [insert_child_rule]
      rw [if_neg hmem]
  · intro a ha hmem
    subst ha
    rw [hres]
    simp only [insert_child_rule]
    rw [if_pos hmem]

theorem set_controller_parent_insertion_rule_w :
    get_controller_children ((set_controller_parent sceneB 3 (some 0) (some 1)).children 0)
      = [1, 3, 2] := by
  have h := (set_controller_parent_insertion_rule sceneB sceneB 3 0 (some 1)
    (by rfl)).2 1 rfl (by decide)
  rw [h]
  decide

theorem foldl_remove_gaps_preserves (c : Nat) : ∀ (l : List Nat) (acc : Scene),
    acc.referenced c = true →
    ((l.foldl remove_gaps_step acc).children c = acc.children c
      ∧ (l.foldl remove_gaps_step acc).referenced c = true) := by
  intro l
  induction l with
  | nil => intro acc h; exact ⟨rfl, h⟩
  | cons x xs ih =>
    intro acc h
    have href : (remove_gaps_step acc x).referenced c = true := by
      unfold remove_gaps_step
      split
      · exact h
      · exact h
    have hch : (remove_gaps_step acc x).children c = acc.children c := by
      unfold remove_gaps_step
      split
      · rfl
      · rename_i hx
        have hne : c ≠ x := by
          intro e
          rw [e] at h
          simp [h] at hx
        exact children_set_other _ _ _ _ hne
    have hstep := ih (remove_gaps_step acc x) href
    simp only [List.foldl_cons]
    exact ⟨hstep.1.trans hch, hstep.2⟩

/-- C10: `remove_gaps_in_all_controllers` applies the gap-removal pass only to
controllers that `referenceQuery` reports as not referenced; the children
array of every referenced controller is left completely unchanged. -/
theorem remove_gaps_in_all_skips_referenced (s : Scene) (c : Nat)
    (h : s.referenced c = true) :
    (remove_gaps_in_all_controllers s).children c = s.children c :=
  (foldl_remove_gaps_preserves c s.nodes s h).1

theorem remove_gaps_in_all_skips_referenced_w :
    (remove_gaps_in_all_controllers sceneC).children 0 = sceneC.children 0 :=
  remove_gaps_in_all_skips_referenced sceneC 0 (by decide)

theorem visit_children_spec {m : Nat}
    (f : Fin m → Finset (Fin m) → Option (Finset (Fin m) × List (Fin m))) (F : Nat)
    (hf : ∀ c (st : Finset (Fin m)), m - st.card ≤ F →
      ∃ s' o, f c st = some (s', o) ∧ st ⊆ s' ∧ s' = st ∪ o.toFinset
        ∧ o.Nodup ∧ ∀ x ∈ o, x ∉ st) :
    ∀ (l : List (Fin m)) (seen : Finset (Fin m)), m - seen.card ≤ F →
      ∃ s' o, visit_children f l seen = some (s', o) ∧ seen ⊆ s'
        ∧ s' = seen ∪ o.toFinset ∧ o.Nodup ∧ ∀ x ∈ o, x ∉ seen := by
  intro l
  induction l with
  | nil =>
    intro seen _
    exact ⟨seen, [], rfl, Finset.Subset.refl _, by simp, List.nodup_nil, by simp⟩
  | cons c rest ih =>
    intro seen hseen
    obtain ⟨s1, o1, hf1, hsub1, heq1, hnd1, hno1⟩ := hf c seen hseen
    have hseen1 : m - s1.card ≤ F :=
      le_trans (Nat.sub_le_sub_left (Finset.card_le_card hsub1) m) hseen
    obtain ⟨s2, o2, hf2, hsub2, heq2, hnd2, hno2⟩ := ih s1 hseen1
    refine ⟨s2, o1 ++ o2, ?_, hsub1.trans hsub2, ?_, ?_, ?_⟩
    · simp [visit_children, hf1, hf2]
    · rw [heq2, heq1, List.toFinset_append, Finset.union_assoc]
    · rw [List.nodup_append]
      refine ⟨hnd1, hnd2, ?_⟩
      intro x hx1 hx2
      exact hno2 x hx2 (by
        rw [heq1]
        exact Finset.mem_union_right _ (List.mem_toFinset.mpr hx1))
    · intro x hx
      rcases List.mem_append.mp hx with hx1 | hx2
      · exact hno1 x hx1
      · exact fun hxs => hno2 x hx2 (hsub1 hxs)

theorem add_controllers_spec {m : Nat} (g : Fin m → List (Fin m)) :
    ∀ (fuel : Nat) (node : Fin m) (seen : Finset (Fin m)), m - seen.card ≤ fuel →
      ∃ s' o, add_controllers_recursively g fuel node seen = some (s', o)
        ∧ seen ⊆ s' ∧ s' = seen ∪ o.toFinset ∧ o.Nodup ∧ ∀ x ∈ o, x ∉ seen := by
  intro fuel
  induction fuel with
  | zero =>
    intro node seen hle
    have hcardle : seen.card ≤ m := by simpa using Finset.card_le_univ seen
    have huniv : seen = Finset.univ := by
      apply Finset.eq_univ_of_card
      rw [Fintype.card_fin]
      omega
    have hmem : node ∈ seen := huniv ▸ Finset.mem_univ node
    exact ⟨seen, [], by simp [add_controllers_recursively, hmem],
      Finset.Subset.refl _, by simp, List.nodup_nil, by simp⟩
  | succ fuel ih =>
    intro node seen hle
    by_cases hmem : node ∈ seen
    · exact ⟨seen, [], by simp [add_controllers_recursively, hmem],
        Finset.Subset.refl _, by simp, List.nodup_nil, by simp⟩
    · have hcardle : seen.card ≤ m := by simpa using Finset.card_le_univ seen
      have hcardlt : seen.card < m := by
        rcases Nat.lt_or_ge seen.card m with h | h
        · exact h
        · exfalso
          have huniv : seen = Finset.univ := by
            apply Finset.eq_univ_of_card
            rw [Fintype.card_fin]
            omega
          exact hmem (huniv ▸ Finset.mem_univ node)
      have hins : (insert node seen).card = seen.card + 1 :=
        Finset.card_insert_of_not_mem hmem
      have hle' : m - (insert node seen).card ≤ fuel := by omega
      obtain ⟨s', o, hv, hsub, heq, hnd, hno⟩ :=
        visit_children_spec (fun c st => add_controllers_recursively g fuel c st)
          fuel (fun c st hcs => ih c st hcs) (g node) (insert node seen) hle'
    
      refine ⟨s', node :: o, ?_, ?_, ?_, ?_, ?_⟩
      · simp [add_controllers_recursively, hmem, hv]
      · exact (Finset.subset_insert node seen).trans hsub
      · rw [heq, List.toFinset_cons, Finset.insert_union, Finset.union_insert]
      · exact List.nodup_cons.mpr
          ⟨fun hx => hno node hx (Finset.mem_insert_self node seen), hnd⟩
      · intro x hx
        rcases List.mem_cons.mp hx with hx1 | hx2
        · exact hx1 ▸ hmem
        · exact fun hxs => hno x hx2 (Finset.mem_insert_of_mem hxs)

/-- C3: the tree traversal of `populate_tree` is cycle-safe.  For every
children-connection graph `g` on `m` controllers — cyclic graphs included —
and every list of roots, the traversal completes within recursion depth `m`
(it never returns `none`, i.e. the Python recursion terminates) and the visit
order has no duplicates: nodes already in `seen_nodes` are skipped, so each
controller is visited at most once. -/
theorem populate_tree_cycle_safe (m : Nat) (g : Fin m → List (Fin m))
    (roots : List (Fin m)) :
    ∃ s o, populate_tree g roots = some (s, o) ∧ o.Nodup := by
  obtain ⟨s, o, hv, _, _, hnd, _⟩ :=
    visit_children_spec (fun c st => add_controllers_recursively g m c st) m
      (fun c st _ => add_controllers_spec g m c st (Nat.sub_le _ _))
      roots ∅ (Nat.sub_le _ _)
  exact ⟨s, o, hv, hnd⟩

/-- C5, counterexample: for a `bool`-typed option var whose persisted value is
the integer 2 (storable by the setter itself, since `isinstance(2, (bool,
int))` holds), the getter returns `bool(2) = True`, not the stored value 2 —
not even up to Python `==`, since `True == 2` is false.  The claim that the
getter returns the stored value whenever it exists and passes the isinstance
check is therefore false. -/
theorem optionvar_value_counterexample :
    isinstance_expected VarKind.bool (PyValue.pyInt 2) = true
    ∧ (OptionVarState.mk VarKind.bool (PyValue.pyBool false)
        (some (PyValue.pyInt 2))).stored = some (PyValue.pyInt 2)
    ∧ optionvar_value (OptionVarState.mk VarKind.bool (PyValue.pyBool false)
        (some (PyValue.pyInt 2))) = PyValue.pyBool true
    ∧ optionvar_value (OptionVarState.mk VarKind.bool (PyValue.pyBool false)
        (some (PyValue.pyInt 2))) ≠ PyValue.pyInt 2
    ∧ pyEq (optionvar_value (OptionVarState.mk VarKind.bool (PyValue.pyBool false)
        (some (PyValue.pyInt 2)))) (PyValue.pyInt 2) = false := by
  refine ⟨rfl, rfl, rfl, by decide, by decide⟩

/-- C5, amended: the getter returns the constructor's default when the option
var does not exist or when the stored value is not an instance of the declared
type's expected Python types; otherwise it returns the stored value for the
`int`, `float` and `string` kinds, and the `bool()` cast of the stored value
for the `bool` kind. -/
theorem optionvar_value_amended (v : OptionVarState) :
    (v.stored = none → optionvar_value v = v.default)
    ∧ (∀ x, v.stored = some x → isinstance_expected v.var_type x = false →
        optionvar_value v = v.default)
    ∧ (∀ x, v.stored = some x → isinstance_expected v.var_type x = true →
        v.var_type ≠ VarKind.bool → optionvar_value v = x)
    ∧ (∀ x, v.stored = some x → isinstance_expected v.var_type x = true →
        v.var_type = VarKind.bool → optionvar_value v = PyValue.pyBool (py_truth x)) := by
  refine ⟨?_, ?_, ?_, ?_⟩
  · intro h
    simp [optionvar_value, h]
  · intro x hx hbad
    simp [optionvar_value, hx, hbad]
  · intro x hx hok hnb
    simp [optionvar_value, hx, hok, hnb]
  · intro x hx hok hb
    rw [hb] at hok
    simp [optionvar_value, hx, hok, hb]

theorem optionvar_value_amended_w :
    optionvar_value (OptionVarState.mk VarKind.int (PyValue.pyInt 0)
        (some (PyValue.pyInt 7))) = PyValue.pyInt 7 :=
  (optionvar_value_amended _).2.2.1 (PyValue.pyInt 7) rfl (by decide) (by decide)

/-- C9: when the assertion passes, assigning to `.value` always persists the
new value (coerced the way `optionVar(intValue/floatValue/stringValue=...)`
stores it), and runs the `on_change` callbacks exactly when the new value
differs, under Python `!=`, from what `.value` returned before the assignment
(which is the default when the var was unset or held a wrongly-typed value). -/
theorem optionvar_set_callbacks (v : OptionVarState) (x : PyValue)
    (h : isinstance_expected v.var_type x = true) :
    ∃ v' invoked, optionvar_set v x = some (v', invoked)
      ∧ (invoked = true ↔ pyEq x (optionvar_value v) = false)
      ∧ v'.stored = some (maya_store v.var_type x)
      ∧ v'.var_type = v.var_type ∧ v'.default = v.default := by
  have hset : optionvar_set v x
      = some ({ v with stored := some (maya_store v.var_type x) },
              !(pyEq x (optionvar_value v))) := by
    simp [optionvar_set, h]
  exact ⟨_, _, hset, by simp, rfl, rfl, rfl⟩

theorem optionvar_set_callbacks_w :
    ∃ v' invoked,
      optionvar_set (OptionVarState.mk VarKind.int (PyValue.pyInt 0) none)
          (PyValue.pyInt 5) = some (v', invoked)
      ∧ (invoked = true ↔ pyEq (PyValue.pyInt 5)
          (optionvar_value (OptionVarState.mk VarKind.int (PyValue.pyInt 0) none)) = false)
      ∧ v'.stored = some (maya_store VarKind.int (PyValue.pyInt 5))
      ∧ v'.var_type = VarKind.int ∧ v'.default = PyValue.pyInt 0 :=
  optionvar_set_callbacks (OptionVarState.mk VarKind.int (PyValue.pyInt 0) none)
    (PyValue.pyInt 5) (by decide)

/-- C6: the `undo()` context manager opens an undo chunk before the block and
closes it after the block, and — because the close sits in a `finally:` — the
chunk is closed even when the block raises, so when the block's own
`undoInfo` calls are balanced, the open and close calls of the whole run are
balanced too.  The exception flag is propagated unchanged. -/
theorem undo_exception_safe (calls : List UndoCall) (raised : Bool)
    (h : calls.count UndoCall.openChunk = calls.count UndoCall.closeChunk) :
    (run_undo_block (calls, raised)).1
        = UndoCall.openChunk :: (calls ++ [UndoCall.closeChunk])
    ∧ (run_undo_block (calls, raised)).2 = raised
    ∧ (run_undo_block (calls, raised)).1.count UndoCall.openChunk
        = (run_undo_block (calls, raised)).1.count UndoCall.closeChunk := by
  refine ⟨rfl, rfl, ?_⟩
  simp [run_undo_block, List.count_cons, List.count_append]
  omega

theorem undo_exception_safe_w :
    (run_undo_block ([], true)).1
        = UndoCall.openChunk :: ([] ++ [UndoCall.closeChunk])
    ∧ (run_undo_block ([], true)).2 = true
    ∧ (run_undo_block ([], true)).1.count UndoCall.openChunk
        = (run_undo_block ([], true)).1.count UndoCall.closeChunk :=
  undo_exception_safe [] true rfl

/-- C7: `lock_attr` maps each of the five recognized lock states to exactly
the `setAttr` flag combination of the source table, and raises `RuntimeError`
precisely on every other string. -/
theorem lock_attr_table :
    lock_attr "lock" = .ok ⟨true, false, false⟩
    ∧ lock_attr "lock_visible" = .ok ⟨true, true, false⟩
    ∧ lock_attr "hide" = .ok ⟨false, false, false⟩
    ∧ lock_attr "unkeyable" = .ok ⟨false, true, false⟩
    ∧ lock_attr "keyable" = .ok ⟨false, false, true⟩
    ∧ ∀ s : String, s ≠ "lock" → s ≠ "lock_visible" → s ≠ "hide" →
        s ≠ "unkeyable" → s ≠ "keyable" →
        lock_attr s = .error ("Invalid lock state: " ++ s) := by
  refine ⟨rfl, rfl, rfl, rfl, rfl, ?_⟩
  intro s h1 h2 h3 h4 h5
  simp [lock_attr, h1, h2, h3, h4, h5]

theorem lock_attr_table_w :
    lock_attr "frobnicate" = .error ("Invalid lock state: " ++ "frobnicate") :=
  lock_attr_table.2.2.2.2.2 "frobnicate" (by decide) (by decide) (by decide)
    (by decide) (by decide)
